import Mathlib

/-!
# omni-crawler: scraper registry, e-commerce extraction and CSV output

A shallow embedding of

* `internal/types/config.go`      (`ScraperConfig`)
* `internal/scraper/factory.go`   (`Factory`, `NewFactory`, `CreateScraper`, `RegisterScraper`)
* `internal/scraper/base.go`      (`CreateCollector`)
* `internal/sites/ecommerce/scraper.go` (`Product`, `ConfigureCollector`, `Scrape`)
* `internal/output/csv.go`        (`Write`, `getStructFields`, `getStructValues`)

Go maps are association lists with unique-key update and Go's `(value, error)`
returns are records with an optional error.  What lies outside the repository
is a parameter of the function that calls it: the colly crawl engine (which
elements it matches, what its element accessors answer, which error `Visit`
returns) and the operating system (whether `os.Create`, the writes and the
deferred flush fail, and how much of the text then reached the file).
The text of a CSV record follows the writer of Go's `encoding/csv`; a reader of
the written file is modelled to state what reading it back yields.
-/

namespace OmniCrawler

/-! ## Go maps -/

/-- A Go `map[string]V`: the entries, most recent store first. -/
structure GoMap (V : Type) where
  entries : List (String × V)
deriving DecidableEq, Repr

namespace GoMap

/-- The result of `make(map[string]V)`. -/
def empty {V : Type} : GoMap V := ⟨[]⟩

/-- Search of an entry list for a key. -/
def find {V : Type} : List (String × V) → String → Option V
  | [], _ => none
  | (k, v) :: rest, key => if k = key then some v else find rest key

/-- The two-valued index expression `v, ok := m[key]`. -/
def lookup {V : Type} (m : GoMap V) (key : String) : Option V :=
  find m.entries key

/-- The assignment `m[key] = v`: the old entry for `key`, if any, is replaced. -/
def store {V : Type} (m : GoMap V) (key : String) (v : V) : GoMap V :=
  ⟨(key, v) :: m.entries.filter (fun p => decide (p.1 ≠ key))⟩

/-- The keys present in the map. -/
def keys {V : Type} (m : GoMap V) : List String :=
  m.entries.map Prod.fst

end GoMap

/-- The one-valued index expression `m[key]` on a `map[string]string`:
a missing key reads as the zero value `""`. -/
def GoMap.index (m : GoMap String) (key : String) : String :=
  (m.lookup key).getD ""

/-! ## `internal/types/config.go` -/

/-- The site configuration record. -/
structure ScraperConfig where
  Name : String
  AllowedDomains : List String
  StartURL : String
  Selectors : GoMap String
  OutputFormat : String
  OutputFile : String
deriving DecidableEq, Repr

/-! ## `internal/scraper/factory.go` -/

/-- A scraper constructor `func(*types.ScraperConfig) Scraper`.  A Go function
may have effects, so it runs in a world `σ` and returns the world it leaves. -/
abbrev Creator (σ S : Type) := ScraperConfig → σ → S × σ

/-- The `Factory` struct.  Its map is the allocated one `NewFactory` makes, the
only way the repository builds a factory. -/
structure Factory (σ S : Type) where
  scrapers : GoMap (Creator σ S)

/-- `NewFactory`: a factory over a freshly made, empty map. -/
def NewFactory {σ S : Type} : Factory σ S :=
  { scrapers := GoMap.empty }

/-- What `CreateScraper` hands back: the `(Scraper, error)` pair and the world
after the call. -/
structure CreateResult (σ S : Type) where
  scraper : Option S
  err : Option String
  world : σ
deriving DecidableEq, Repr

/-- `Factory.CreateScraper`. -/
def Factory.CreateScraper {σ S : Type} (f : Factory σ S) (scraperType : String)
    (config : ScraperConfig) (w : σ) : CreateResult σ S :=
  match f.scrapers.lookup scraperType with
  | none =>
    { scraper := none
      err := some ("scraper type '" ++ scraperType ++ "' not found")
      world := w }
  | some creator =>
    let r := creator config w
    { scraper := some r.1, err := none, world := r.2 }

/-- `Factory.RegisterScraper`. -/
def Factory.RegisterScraper {σ S : Type} (f : Factory σ S) (scraperType : String)
    (creator : Creator σ S) : Factory σ S :=
  { f with scrapers := f.scrapers.store scraperType creator }

/-- A type name is registered when it is a key of the factory's map. -/
def Factory.registered {σ S : Type} (f : Factory σ S) (scraperType : String) : Prop :=
  scraperType ∈ f.scrapers.keys

/-! ## `internal/scraper/interface.go`: dynamic values -/

/-- The value of a struct field: a string, an integer, a boolean, or a value of
any other type, given by the text `fmt`'s `%v` prints for it. -/
inductive FieldValue where
  | str (s : String)
  | int (n : Int)
  | bool (b : Bool)
  | other (printed : String)
deriving DecidableEq, Repr

/-- One field of a struct value, as reflection sees it: its declared name,
whether it is exported, and its value. -/
structure StructField where
  Name : String
  exported : Bool
  value : FieldValue
deriving DecidableEq, Repr

/-- `ScrapedData`, the empty interface: a struct held by value, a pointer to a
struct (possibly nil), a value that is no struct, or the nil interface. -/
inductive ScrapedData where
  | structVal (fields : List StructField)
  | structPtr (target : Option (List StructField))
  | nonStruct (v : FieldValue)
  | nilValue
deriving DecidableEq, Repr

/-- The fields of the struct an item is or points to (none for anything else). -/
def ScrapedData.fields : ScrapedData → List StructField
  | .structVal fs => fs
  | .structPtr (some fs) => fs
  | _ => []

/-- An item is a struct, by value or through a non-nil pointer, whose declared
field names are `T` in this order. -/
def ScrapedData.hasFieldNames (T : List String) : ScrapedData → Prop
  | .structVal fs => fs.map StructField.Name = T
  | .structPtr (some fs) => fs.map StructField.Name = T
  | _ => False

/-! ## The crawl engine (colly), as far as the scrapers use it -/

/-- A matched element, given by the two accessors the extraction calls:
`ChildAttr selector attrName` and `ChildText selector`. -/
structure HTMLElement where
  ChildAttr : String → String → String
  ChildText : String → String

/-- What the engine does during one `Visit`: for an `OnHTML` selector, the
elements it hands to that callback, in the order it finds them, and the error
`Visit` returns. -/
structure Crawl where
  matched : String → List HTMLElement
  err : Option String

/-- The engine: domain restriction and start URL determine the crawl. -/
abbrev Engine := List String → String → Crawl

/-- A collector over a callback state `σ`: the domain restriction and the
registered `OnHTML` callbacks, in registration order. -/
structure Collector (σ : Type) where
  AllowedDomains : List String
  htmlCallbacks : List (String × (HTMLElement → σ → σ))

/-- `c.OnHTML(selector, f)`. -/
def Collector.OnHTML {σ : Type} (c : Collector σ) (selector : String)
    (f : HTMLElement → σ → σ) : Collector σ :=
  { c with htmlCallbacks := c.htmlCallbacks ++ [(selector, f)] }

/-- `c.Visit(url)`: every registered callback, in registration order, runs on
each element the engine matched to its selector, in the engine's order; the
call returns the engine's error. -/
def Collector.Visit {σ : Type} (engine : Engine) (c : Collector σ) (url : String)
    (s : σ) : σ × Option String :=
  let crawl := engine c.AllowedDomains url
  (c.htmlCallbacks.foldl
      (fun st cb => (crawl.matched cb.1).foldl (fun st1 el => cb.2 el st1) st) s,
   crawl.err)

/-! ## `internal/scraper/base.go` -/

/-- `BaseScraper`. -/
structure BaseScraper where
  Config : ScraperConfig
deriving DecidableEq, Repr

/-- `NewBaseScraper`. -/
def NewBaseScraper (config : ScraperConfig) : BaseScraper :=
  { Config := config }

/-- `BaseScraper.GetName`. -/
def BaseScraper.GetName (b : BaseScraper) : String := b.Config.Name

/-- `BaseScraper.GetAllowedDomains`. -/
def BaseScraper.GetAllowedDomains (b : BaseScraper) : List String :=
  b.Config.AllowedDomains

/-- `BaseScraper.CreateCollector`: a collector restricted to the configured
domains.  The three hooks it installs only print to the console. -/
def BaseScraper.CreateCollector {σ : Type} (b : BaseScraper) : Collector σ :=
  { AllowedDomains := b.Config.AllowedDomains, htmlCallbacks := [] }

/-! ## `internal/sites/ecommerce/scraper.go` -/

/-- `Product`. -/
structure Product where
  Url : String
  Image : String
  Name : String
  Price : String
deriving DecidableEq, Repr

/-- A `Product` stored in a `ScrapedData` interface value. -/
def Product.toScrapedData (p : Product) : ScrapedData :=
  .structVal
    [ { Name := "Url", exported := true, value := .str p.Url },
      { Name := "Image", exported := true, value := .str p.Image },
      { Name := "Name", exported := true, value := .str p.Name },
      { Name := "Price", exported := true, value := .str p.Price } ]

/-- `EcommerceScraper`: the embedded base scraper and the product slice. -/
structure EcommerceScraper extends BaseScraper where
  products : List Product
deriving DecidableEq, Repr

/-- `NewScraper`. -/
def NewScraper (config : ScraperConfig) : EcommerceScraper :=
  { toBaseScraper := NewBaseScraper config, products := [] }

/-- The `Product` literal the `OnHTML` callback builds from a matched element. -/
def productOf (config : ScraperConfig) (el : HTMLElement) : Product :=
  { Url := el.ChildAttr (config.Selectors.index "url") "href"
    Image := el.ChildAttr (config.Selectors.index "image") "src"
    Name := el.ChildText (config.Selectors.index "name")
    Price := el.ChildText (config.Selectors.index "price") }

/-- The body of the `OnHTML` callback: build one product from the element and
append it to the receiver's slice. -/
def EcommerceScraper.onProduct (el : HTMLElement) (e : EcommerceScraper) :
    EcommerceScraper :=
  { e with products := e.products ++ [productOf e.Config el] }

/-- `EcommerceScraper.ConfigureCollector`: the collector with the callback
registered, and the returned error. -/
def EcommerceScraper.ConfigureCollector (e : EcommerceScraper)
    (c : Collector EcommerceScraper) : Collector EcommerceScraper × Option String :=
  (c.OnHTML (e.Config.Selectors.index "product_item") EcommerceScraper.onProduct, none)

/-- What `Scrape` hands back: the `([]ScrapedData, error)` pair and the
receiver after the call. -/
structure ScrapeResult where
  data : List ScrapedData
  err : Option String
  self : EcommerceScraper
deriving DecidableEq, Repr

/-- `EcommerceScraper.Scrape`. -/
def EcommerceScraper.Scrape (engine : Engine) (e : EcommerceScraper) (url : String) :
    ScrapeResult :=
  let e0 : EcommerceScraper := { e with products := [] }
  let c : Collector EcommerceScraper := e0.CreateCollector
  match e0.ConfigureCollector c with
  | (_, some err) => { data := [], err := some err, self := e0 }
  | (c1, none) =>
    match c1.Visit engine url e0 with
    | (e1, some err) => { data := [], err := some err, self := e1 }
    | (e1, none) =>
      { data := e1.products.map Product.toScrapedData, err := none, self := e1 }

/-! ## `encoding/csv`: how a record is written (default comma, no CRLF) -/

/-- The double quote character. -/
def dquote : Char := Char.ofNat 34

/-- `unicode.IsSpace`. -/
def unicodeIsSpace (c : Char) : Bool :=
  let n := c.toNat
  n = 9 || n = 10 || n = 11 || n = 12 || n = 13 || n = 32 || n = 0x85 || n = 0xA0
    || n = 0x1680 || (0x2000 ≤ n && n ≤ 0x200A) || n = 0x2028 || n = 0x2029
    || n = 0x202F || n = 0x205F || n = 0x3000

/-- `Writer.fieldNeedsQuotes`. -/
def fieldNeedsQuotes (field : String) : Bool :=
  if field = "" then false
  else if field = "\\." then true
  else if field.data.any (fun c => c = '\n' || c = '\r' || c = dquote || c = ',') then true
  else
    match field.data with
    | [] => false
    | r1 :: _ => unicodeIsSpace r1

/-- The characters of a quoted field between its quotes: a quote is doubled,
everything else is copied. -/
def escapeQuotes : List Char → List Char
  | [] => []
  | c :: cs => if c = dquote then dquote :: dquote :: escapeQuotes cs else c :: escapeQuotes cs

/-- One field as `Writer.Write` emits it. -/
def csvField (field : String) : String :=
  if fieldNeedsQuotes field then
    String.mk (dquote :: (escapeQuotes field.data ++ [dquote]))
  else field

/-- The fields of a record separated by commas. -/
def csvJoin : List String → String
  | [] => ""
  | [f] => csvField f
  | f :: rest => csvField f ++ "," ++ csvJoin rest

/-- One record as `Writer.Write` emits it: the fields, then a newline. -/
def csvRecord (record : List String) : String :=
  csvJoin record ++ "\n"

/-- The text of a sequence of records. -/
def csvText : List (List String) → String
  | [] => ""
  | r :: rest => csvRecord r ++ csvText rest

/-! ## `internal/output/csv.go` -/

/-- `fmt.Sprintf("%v", v)` on a field value. -/
def FieldValue.format : FieldValue → String
  | .str s => s
  | .int n => toString n
  | .bool b => if b then "true" else "false"
  | .other printed => printed

/-- `getStructFields`: the declared field names in declaration order; `none`
when reflection panics (`NumField` on something that is no struct). -/
def getStructFields : ScrapedData → Option (List String)
  | .structVal fs => some (fs.map StructField.Name)
  | .structPtr (some fs) => some (fs.map StructField.Name)
  | .structPtr none => none
  | .nonStruct _ => none
  | .nilValue => none

/-- The loop of `getStructValues` over the fields: `none` when `Interface()`
panics on an unexported field. -/
def structValues : List StructField → Option (List String)
  | [] => some []
  | f :: rest =>
    if f.exported then
      match structValues rest with
      | some vs => some (f.value.format :: vs)
      | none => none
    else none

/-- `getStructValues`: the stringified field values in declaration order;
`none` when reflection panics. -/
def getStructValues : ScrapedData → Option (List String)
  | .structVal fs => structValues fs
  | .structPtr (some fs) => structValues fs
  | .structPtr none => none
  | .nonStruct _ => none
  | .nilValue => none

/-- The files of the file system: path and contents. -/
structure FileSystem where
  files : GoMap String
deriving DecidableEq, Repr

/-- The file at `path` holds `text` (created or replaced). -/
def FileSystem.put (fs : FileSystem) (path : String) (text : String) : FileSystem :=
  { files := fs.files.store path text }

/-- The contents of the file at `path`, if there is one. -/
def FileSystem.read (fs : FileSystem) (path : String) : Option String :=
  fs.files.lookup path

/-- The failures the operating system may report: the error of `os.Create` on
a path; the error the `k`-th `Write` call on the csv writer returns (call `0`
writes the header); the error the deferred `Flush` and `Close` meet, which
`Write` never sees; and, when a write or the flush fails, how many characters
of the text handed to the writer had reached the file. -/
structure IOEnv where
  createErr : String → Option String
  writeErr : Nat → Option String
  flushErr : Option String
  reached : Nat

/-- How a call ends: it returns an error value (possibly nil), or it panics. -/
inductive Outcome where
  | returned (err : Option String)
  | panicked
deriving DecidableEq, Repr

/-- What `Write` leaves behind. -/
structure WriteResult where
  outcome : Outcome
  fs : FileSystem
deriving DecidableEq, Repr

/-- The part of the text that reached the file before a failure. -/
def IOEnv.cut (env : IOEnv) (text : String) : String :=
  String.mk (text.data.take env.reached)

/-- The file after the deferred `Flush` and `Close`, given how the body ended
and the text it handed to the csv writer: after a failed write the writer's
error sticks and the file keeps what had reached it; otherwise the flush
decides whether the whole text lands. -/
def IOEnv.fileAfter (env : IOEnv) : Outcome → String → String
  | .returned (some _), text => env.cut text
  | _, text =>
    match env.flushErr with
    | none => text
    | some _ => env.cut text

/-- The data-row loop of `CSVWriter.Write`: `k` numbers the next call on the
csv writer and `buf` is the text handed to it so far. -/
def writeRows (env : IOEnv) : List ScrapedData → Nat → String → Outcome × String
  | [], _, buf => (.returned none, buf)
  | item :: rest, k, buf =>
    match getStructValues item with
    | none => (.panicked, buf)
    | some record =>
      match env.writeErr k with
      | some e =>
        (.returned (some ("failed to write record: " ++ e)), buf ++ csvRecord record)
      | none => writeRows env rest (k + 1) (buf ++ csvRecord record)

/-- `CSVWriter.Write`.  `os.Create` empties the file; the deferred flush and
close run on every later path, and their errors are dropped. -/
def CSVWriter.Write (env : IOEnv) (data : List ScrapedData) (filename : String)
    (fs : FileSystem) : WriteResult :=
  match data with
  | [] => { outcome := .returned (some "no data to write"), fs := fs }
  | first :: _ =>
    match env.createErr filename with
    | some e =>
      { outcome := .returned (some ("failed to create CSV file: " ++ e)), fs := fs }
    | none =>
      match getStructFields first with
      | none => { outcome := .panicked, fs := fs.put filename "" }
      | some headers =>
        match env.writeErr 0 with
        | some e =>
          { outcome := .returned (some ("failed to write headers: " ++ e))
            fs := fs.put filename (env.cut (csvRecord headers)) }
        | none =>
          let r := writeRows env data 1 (csvRecord headers)
          { outcome := r.1, fs := fs.put filename (env.fileAfter r.1 r.2) }

/-! ## Reading a written file back

The repository has no reader.  This one reads a file line by line: lines end at
a newline, blank lines are skipped as the reader of `encoding/csv` skips them,
and a line is split into fields at the commas outside quotes, a doubled quote
inside a quoted field standing for one quote. -/

/-- Put a character in front of the first list. -/
def pushFront (c : Char) : List (List Char) → List (List Char)
  | [] => [[c]]
  | l :: ls => (c :: l) :: ls

/-- The lines of a character sequence; a final newline ends the last line. -/
def linesOf : List Char → List (List Char)
  | [] => []
  | c :: cs => if c = '\n' then [] :: linesOf cs else pushFront c (linesOf cs)

/-- The lines of a text. -/
def textLines (text : String) : List String :=
  (linesOf text.data).map String.mk

/-- Where the field splitter stands: at the start of a field, inside an
unquoted field, inside a quoted field, or just after a quote met inside a
quoted field. -/
inductive ReadState where
  | start
  | unquoted
  | quoted
  | quoteSeen
deriving DecidableEq, Repr

/-- The fields of a line from a given state on; the first list is the rest of
the field being read. -/
def fieldsFrom : ReadState → List Char → List (List Char)
  | _, [] => [[]]
  | .start, c :: cs =>
    if c = dquote then fieldsFrom .quoted cs
    else if c = ',' then [] :: fieldsFrom .start cs
    else pushFront c (fieldsFrom .unquoted cs)
  | .unquoted, c :: cs =>
    if c = ',' then [] :: fieldsFrom .start cs
    else pushFront c (fieldsFrom .unquoted cs)
  | .quoted, c :: cs =>
    if c = dquote then fieldsFrom .quoteSeen cs
    else pushFront c (fieldsFrom .quoted cs)
  | .quoteSeen, c :: cs =>
    if c = dquote then pushFront dquote (fieldsFrom .quoted cs)
    else if c = ',' then [] :: fieldsFrom .start cs
    else pushFront c (fieldsFrom .unquoted cs)

/-- What follows a field on its line: nothing, or a comma and more fields. -/
def fieldsAfter : List Char → List (List Char)
  | [] => []
  | _ :: more => fieldsFrom .start more

/-- The fields of one line. -/
def parseFields (line : String) : List String :=
  (fieldsFrom .start line.data).map String.mk

/-- The records read back from a text: its non-blank lines, split into fields. -/
def readBack (text : String) : List (List String) :=
  ((textLines text).filter (fun l => decide (l ≠ ""))).map parseFields

/-- The field values of an item stringified in declaration order. -/
def ScrapedData.row (item : ScrapedData) : List String :=
  item.fields.map (fun f => f.value.format)

/-- The text of a file up to its first newline. -/
def firstLine (text : String) : String :=
  String.mk (text.data.takeWhile (fun c => decide (c ≠ '\n')))

/-! ## Sample inputs -/

/-- An element with one link, one image, a title and a price, answering the
selectors `a`, `img`, `.title` and `.price`; any other selector matches nothing. -/
def sampleElement (url image name price : String) : HTMLElement :=
  { ChildAttr := fun selector attr =>
      if selector = "a" ∧ attr = "href" then url
      else if selector = "img" ∧ attr = "src" then image
      else ""
    ChildText := fun selector =>
      if selector = ".title" then name
      else if selector = ".price" then price
      else "" }

/-- The three `.item` elements of the sample page. -/
def samplePage : List HTMLElement :=
  [ sampleElement "/p/1" "/i/1.png" "Tea" "3.50",
    sampleElement "/p/2" "/i/2.png" "Mug" "7.00",
    sampleElement "/p/3" "/i/3.png" "Pot" "12.00" ]

/-- An engine that finds the sample page's items under the selector `.item`
and reports no error. -/
def sampleEngine : Engine := fun _ _ =>
  { matched := fun selector => if selector = ".item" then samplePage else []
    err := none }

/-- An engine that finds the same items and then reports a failure. -/
def failingEngine : Engine := fun _ _ =>
  { matched := fun selector => if selector = ".item" then samplePage else []
    err := some "Not Found" }

/-- A second engine: one item, no error. -/
def otherEngine : Engine := fun _ _ =>
  { matched := fun selector =>
      if selector = ".item" then [sampleElement "/p/9" "/i/9.png" "Cup" "1.00"] else []
    err := none }

/-- The configuration of the end-to-end scenario. -/
def shopConfig : ScraperConfig :=
  { Name := "shop"
    AllowedDomains := ["example.com"]
    StartURL := "http://example.com/list"
    Selectors := ⟨[("product_item", ".item"), ("url", "a"), ("image", "img"),
      ("name", ".title"), ("price", ".price")]⟩
    OutputFormat := "csv"
    OutputFile := "products.csv" }

/-- The scenario's configuration without the `price` selector. -/
def noPriceConfig : ScraperConfig :=
  { shopConfig with
    Selectors := ⟨[("product_item", ".item"), ("url", "a"), ("image", "img"),
      ("name", ".title")]⟩ }

/-- The scenario's configuration without the `product_item` selector. -/
def noItemConfig : ScraperConfig :=
  { shopConfig with
    Selectors := ⟨[("url", "a"), ("image", "img"), ("name", ".title"),
      ("price", ".price")]⟩ }

/-- A scraper whose slice still holds a record of an earlier run. -/
def usedScraper : EcommerceScraper :=
  { toBaseScraper := NewBaseScraper shopConfig
    products := [{ Url := "/old", Image := "/old.png", Name := "Old", Price := "0" }] }

/-- An operating system on which nothing fails. -/
def okEnv : IOEnv :=
  { createErr := fun _ => none, writeErr := fun _ => none, flushErr := none, reached := 0 }

/-- A file system holding one earlier output file. -/
def sampleFS : FileSystem :=
  { files := ⟨[("products.csv", "stale\n")]⟩ }

/-- Two records of one struct type with fields `Id`, `Name` and `InStock`, the
first held by value and the second through a pointer. -/
def sampleStock : List ScrapedData :=
  [ .structVal
      [ { Name := "Id", exported := true, value := .int 7 },
        { Name := "Name", exported := true, value := .str "Tea, green" },
        { Name := "InStock", exported := true, value := .bool true } ],
    .structPtr (some
      [ { Name := "Id", exported := true, value := .int (-2) },
        { Name := "Name", exported := true, value := .str "Mug" },
        { Name := "InStock", exported := true, value := .bool false } ]) ]

/-- One record of a one-field struct type whose value spans two lines. -/
def twoLineValue : List ScrapedData :=
  [ .structVal [ { Name := "Name", exported := true, value := .str "Green\nTea" } ] ]

/-- One record of a one-field struct type whose value is empty. -/
def emptyValue : List ScrapedData :=
  [ .structVal [ { Name := "Name", exported := true, value := .str "" } ] ]

/-- An operating system on which only the deferred flush fails, before any
character reached the file. -/
def flushFailEnv : IOEnv :=
  { createErr := fun _ => none, writeErr := fun _ => none
    flushErr := some "no space left on device", reached := 0 }

/-! ## Lemmas on maps -/

theorem GoMap.find_eq_none_iff {V : Type} (l : List (String × V)) (key : String) :
    GoMap.find l key = none ↔ key ∉ l.map Prod.fst := by
  induction l with
  | nil => simp [GoMap.find]
  | cons p rest ih =>
    obtain ⟨k, v⟩ := p
    by_cases h : k = key
    · simp [GoMap.find, h]
    · have h2 : ¬ key = k := fun e => h e.symm
      simp [GoMap.find, h, h2, ih]

theorem GoMap.lookup_store_same {V : Type} (m : GoMap V) (key : String) (v : V) :
    (m.store key v).lookup key = some v := by
  simp [GoMap.store, GoMap.lookup, GoMap.find]

theorem GoMap.lookup_eq_none_iff {V : Type} (m : GoMap V) (key : String) :
    m.lookup key = none ↔ key ∉ m.keys :=
  GoMap.find_eq_none_iff m.entries key


/-! ## The registry -/

theorem not_registered_NewFactory {σ S : Type} (t : String) :
    ¬ (NewFactory : Factory σ S).registered t := by
  simp [Factory.registered, NewFactory, GoMap.empty, GoMap.keys]

/-- The registered names after `RegisterScraper(t, ctor)` are `t` and those
registered before. -/
theorem registered_RegisterScraper {σ S : Type} (f : Factory σ S) (t u : String)
    (ctor : Creator σ S) :
    (f.RegisterScraper t ctor).registered u ↔ u = t ∨ f.registered u := by
  simp only [Factory.registered, Factory.RegisterScraper, GoMap.store, GoMap.keys,
    List.map_cons, List.mem_cons, List.mem_map, List.mem_filter, decide_eq_true_eq]
  constructor
  · rintro (h | ⟨p, ⟨hp, _⟩, rfl⟩)
    · exact Or.inl h
    · exact Or.inr ⟨p, hp, rfl⟩
  · rintro (h | ⟨p, hp, rfl⟩)
    · exact Or.inl h
    · by_cases hk : p.1 = t
      · exact Or.inl hk
      · exact Or.inr ⟨p, ⟨hp, hk⟩, rfl⟩

/-- C1: after `RegisterScraper(t, ctor)` on any factory, whatever was registered
for `t` before, `CreateScraper(t, cfg)` returns no error and exactly what
`ctor(cfg)` builds: the last registration for a key wins. -/
theorem register_then_create {σ S : Type} (f : Factory σ S) (t : String)
    (ctor : Creator σ S) (cfg : ScraperConfig) (w : σ) :
    (f.RegisterScraper t ctor).CreateScraper t cfg w =
      { scraper := some (ctor cfg w).1, err := none, world := (ctor cfg w).2 } := by
  simp [Factory.RegisterScraper, Factory.CreateScraper, GoMap.lookup_store_same]

/-- C2: `CreateScraper(t, cfg)` fails exactly when `t` is not registered, and
then it returns no scraper, the error `scraper type 't' not found`, and the
world it was given, so no constructor ran; on a factory fresh from
`NewFactory` every call fails this way. -/
theorem create_fails_iff_unregistered {σ S : Type} (f : Factory σ S) (t : String)
    (cfg : ScraperConfig) (w : σ) :
    ((f.CreateScraper t cfg w).err ≠ none ↔ ¬ f.registered t) ∧
    (f.CreateScraper t cfg w =
        { scraper := none, err := some ("scraper type '" ++ t ++ "' not found"), world := w }
      ↔ ¬ f.registered t) ∧
    (NewFactory : Factory σ S).CreateScraper t cfg w =
        { scraper := none, err := some ("scraper type '" ++ t ++ "' not found"), world := w } := by
  have key := GoMap.lookup_eq_none_iff f.scrapers t
  refine ⟨?_, ?_, ?_⟩
  · unfold Factory.registered
    rw [← key]
    unfold Factory.CreateScraper
    cases h : f.scrapers.lookup t <;> simp
  · unfold Factory.registered
    rw [← key]
    unfold Factory.CreateScraper
    cases h : f.scrapers.lookup t <;> simp
  · rfl

/-! ## The e-commerce scraper -/

theorem foldl_onProduct (els : List HTMLElement) (e : EcommerceScraper) :
    els.foldl (fun st el => EcommerceScraper.onProduct el st) e =
      { e with products := e.products ++ els.map (productOf e.Config) } := by
  induction els generalizing e with
  | nil => simp
  | cons el rest ih =>
    rw [List.foldl_cons, ih]
    simp [EcommerceScraper.onProduct]

/-- `Scrape` in closed form: the products are those of the elements the engine
matched to the `product_item` selector during this call, in the engine's order,
and the error is the engine's. -/
theorem Scrape_eq (engine : Engine) (e : EcommerceScraper) (url : String) :
    e.Scrape engine url =
      match (engine e.Config.AllowedDomains url).err with
      | some err =>
        { data := []
          err := some err
          self := { e with products :=
            ((engine e.Config.AllowedDomains url).matched
              (e.Config.Selectors.index "product_item")).map (productOf e.Config) } }
      | none =>
        { data := (((engine e.Config.AllowedDomains url).matched
              (e.Config.Selectors.index "product_item")).map (productOf e.Config)).map
              Product.toScrapedData
          err := none
          self := { e with products :=
            ((engine e.Config.AllowedDomains url).matched
              (e.Config.Selectors.index "product_item")).map (productOf e.Config) } } := by
  simp only [EcommerceScraper.Scrape, EcommerceScraper.ConfigureCollector,
    BaseScraper.CreateCollector, Collector.OnHTML, Collector.Visit, List.nil_append,
    List.foldl_cons, List.foldl_nil, foldl_onProduct]
  cases h : (engine e.Config.AllowedDomains url).err <;> simp

/-- `Scrape` reads nothing of the receiver but its embedded base scraper. -/
theorem Scrape_congr (engine : Engine) (e e' : EcommerceScraper) (url : String)
    (h : e.toBaseScraper = e'.toBaseScraper) :
    e.Scrape engine url = e'.Scrape engine url := by
  unfold EcommerceScraper.Scrape
  rw [h]

/-- C3: whatever the receiver's slice holds when `Scrape` is called, the call
returns what a freshly constructed scraper over the same configuration returns
for the same crawl; so does a second call after any first one; and the returned
sequence is a function of the elements and the error of this call's crawl alone. -/
theorem scrape_ignores_earlier_runs (engine1 engine2 : Engine) (e : EcommerceScraper)
    (url1 url2 : String) :
    e.Scrape engine2 url2 = (NewScraper e.Config).Scrape engine2 url2 ∧
    (e.Scrape engine1 url1).self.Scrape engine2 url2 =
      (NewScraper e.Config).Scrape engine2 url2 ∧
    (e.Scrape engine2 url2).data =
      if (engine2 e.Config.AllowedDomains url2).err.isSome then []
      else ((engine2 e.Config.AllowedDomains url2).matched
        (e.Config.Selectors.index "product_item")).map
          (fun el => (productOf e.Config el).toScrapedData) := by
  have hbase : (e.Scrape engine1 url1).self.toBaseScraper = e.toBaseScraper := by
    rw [Scrape_eq]
    cases (engine1 e.Config.AllowedDomains url1).err <;> rfl
  refine ⟨?_, ?_, ?_⟩
  · exact Scrape_congr engine2 e (NewScraper e.Config) url2 rfl
  · exact Scrape_congr engine2 _ (NewScraper e.Config) url2 hbase
  · rw [Scrape_eq]
    cases (engine2 e.Config.AllowedDomains url2).err <;> simp

/-- C4: when the crawl succeeds and the engine hands the elements `E1..En` to
the `product_item` callback in this order, `Scrape` returns no error and the
sequence `[record(E1), ..., record(En)]`, where `record(E)` is the struct value
with the fields `Url` (the `href` of the child under selector `url`), `Image`
(the `src` of the child under `image`), `Name` (the text under `name`) and
`Price` (the text under `price`), in this order. -/
theorem scrape_returns_records_in_order (engine : Engine) (e : EcommerceScraper)
    (url : String) (elems : List HTMLElement)
    (hok : (engine e.Config.AllowedDomains url).err = none)
    (hel : (engine e.Config.AllowedDomains url).matched
      (e.Config.Selectors.index "product_item") = elems) :
    (e.Scrape engine url).err = none ∧
    (e.Scrape engine url).data = elems.map (fun E => ScrapedData.structVal
      [ { Name := "Url", exported := true
          value := .str (E.ChildAttr (e.Config.Selectors.index "url") "href") },
        { Name := "Image", exported := true
          value := .str (E.ChildAttr (e.Config.Selectors.index "image") "src") },
        { Name := "Name", exported := true
          value := .str (E.ChildText (e.Config.Selectors.index "name")) },
        { Name := "Price", exported := true
          value := .str (E.ChildText (e.Config.Selectors.index "price")) } ]) ∧
    (e.Scrape engine url).data.length = elems.length := by
  rw [Scrape_eq, hok, hel]
  simp [productOf, Product.toScrapedData]

theorem scrape_returns_records_in_order_witness :
    (usedScraper.Scrape sampleEngine "http://example.com/list").err = none ∧
    (usedScraper.Scrape sampleEngine "http://example.com/list").data =
      [ .structVal
          [ { Name := "Url", exported := true, value := .str "/p/1" },
            { Name := "Image", exported := true, value := .str "/i/1.png" },
            { Name := "Name", exported := true, value := .str "Tea" },
            { Name := "Price", exported := true, value := .str "3.50" } ],
        .structVal
          [ { Name := "Url", exported := true, value := .str "/p/2" },
            { Name := "Image", exported := true, value := .str "/i/2.png" },
            { Name := "Name", exported := true, value := .str "Mug" },
            { Name := "Price", exported := true, value := .str "7.00" } ],
        .structVal
          [ { Name := "Url", exported := true, value := .str "/p/3" },
            { Name := "Image", exported := true, value := .str "/i/3.png" },
            { Name := "Name", exported := true, value := .str "Pot" },
            { Name := "Price", exported := true, value := .str "12.00" } ] ] ∧
    (usedScraper.Scrape sampleEngine "http://example.com/list").data.length = 3 :=
  scrape_returns_records_in_order sampleEngine usedScraper "http://example.com/list"
    samplePage rfl rfl

/-- C5, as stated, fails: with no `product_item` selector `ConfigureCollector`
returns no error and `Scrape` completes with an empty result and no error. -/
theorem scrape_without_product_item_succeeds :
    noItemConfig.Selectors.lookup "product_item" = none ∧
    ((NewScraper noItemConfig).ConfigureCollector
      (NewScraper noItemConfig).CreateCollector).2 = none ∧
    (NewScraper noItemConfig).Scrape sampleEngine "http://example.com/list" =
      { data := [], err := none, self := NewScraper noItemConfig } := by
  refine ⟨by decide, rfl, by decide⟩

/-- C5, amended: with no `product_item` selector `ConfigureCollector` returns no
error and registers the callback under the empty selector; `Scrape` returns
exactly the error of the engine's visit, and when that is nil it completes with
the records of the elements the engine matched to the empty selector. -/
theorem scrape_without_product_item (engine : Engine) (e : EcommerceScraper)
    (url : String) (c : Collector EcommerceScraper)
    (h : e.Config.Selectors.lookup "product_item" = none) :
    (e.ConfigureCollector c).2 = none ∧
    (e.ConfigureCollector c).1.htmlCallbacks.map Prod.fst =
      c.htmlCallbacks.map Prod.fst ++ [""] ∧
    (e.Scrape engine url).err = (engine e.Config.AllowedDomains url).err ∧
    ((engine e.Config.AllowedDomains url).err = none →
      (e.Scrape engine url).data =
        ((engine e.Config.AllowedDomains url).matched "").map
          (fun el => (productOf e.Config el).toScrapedData)) := by
  have hsel : e.Config.Selectors.index "product_item" = "" := by
    simp [GoMap.index, h]
  refine ⟨rfl, ?_, ?_, ?_⟩
  · simp [EcommerceScraper.ConfigureCollector, Collector.OnHTML, hsel]
  · rw [Scrape_eq]
    cases (engine e.Config.AllowedDomains url).err <;> rfl
  · intro hok
    rw [Scrape_eq, hok, hsel]
    simp

theorem scrape_without_product_item_witness :
    noItemConfig.Selectors.lookup "product_item" = none ∧
    ((NewScraper noItemConfig).ConfigureCollector
      (NewScraper noItemConfig).CreateCollector).2 = none ∧
    ((NewScraper noItemConfig).ConfigureCollector
      (NewScraper noItemConfig).CreateCollector).1.htmlCallbacks.map Prod.fst =
      ((NewScraper noItemConfig).CreateCollector
        : Collector EcommerceScraper).htmlCallbacks.map Prod.fst ++ [""] ∧
    ((NewScraper noItemConfig).Scrape sampleEngine "u").err =
      (sampleEngine (NewScraper noItemConfig).Config.AllowedDomains "u").err ∧
    ((NewScraper noItemConfig).Scrape sampleEngine "u").data =
      ((sampleEngine (NewScraper noItemConfig).Config.AllowedDomains "u").matched "").map
        (fun el => (productOf (NewScraper noItemConfig).Config el).toScrapedData) :=
  have h := scrape_without_product_item sampleEngine (NewScraper noItemConfig) "u"
    (NewScraper noItemConfig).CreateCollector (by decide)
  ⟨by decide, h.1, h.2.1, h.2.2.1, h.2.2.2 rfl⟩

/-- C7: when the engine's visit reports an error, `Scrape` returns that error
and an empty sequence, although the records the callback appended before the
error are in the receiver's slice. -/
theorem scrape_error_returns_nothing (engine : Engine) (e : EcommerceScraper)
    (url : String) (err : String)
    (h : (engine e.Config.AllowedDomains url).err = some err) :
    (e.Scrape engine url).data = [] ∧
    (e.Scrape engine url).data.length = 0 ∧
    (e.Scrape engine url).err = some err ∧
    (e.Scrape engine url).self.products =
      ((engine e.Config.AllowedDomains url).matched
        (e.Config.Selectors.index "product_item")).map (productOf e.Config) := by
  rw [Scrape_eq, h]
  simp

theorem scrape_error_returns_nothing_witness :
    ((NewScraper shopConfig).Scrape failingEngine "http://example.com/list").data = [] ∧
    ((NewScraper shopConfig).Scrape failingEngine "http://example.com/list").data.length = 0 ∧
    ((NewScraper shopConfig).Scrape failingEngine "http://example.com/list").err
      = some "Not Found" ∧
    ((NewScraper shopConfig).Scrape failingEngine "http://example.com/list").self.products =
      ((failingEngine (NewScraper shopConfig).Config.AllowedDomains
          "http://example.com/list").matched
        ((NewScraper shopConfig).Config.Selectors.index "product_item")).map
        (productOf (NewScraper shopConfig).Config) :=
  scrape_error_returns_nothing failingEngine (NewScraper shopConfig)
    "http://example.com/list" "Not Found" rfl

/-- C6: on an engine whose elements answer the empty selector with the empty
string, `Scrape` returns exactly the engine's error whatever keys the selectors
map lacks, and a missing `price`, `name`, `url` or `image` key leaves the
corresponding field of every returned record empty. -/
theorem missing_field_selector_gives_empty_field (engine : Engine)
    (e : EcommerceScraper) (url : String)
    (hengine : ∀ el ∈ (engine e.Config.AllowedDomains url).matched
        (e.Config.Selectors.index "product_item"),
      el.ChildText "" = "" ∧ ∀ attr, el.ChildAttr "" attr = "") :
    (e.Scrape engine url).err = (engine e.Config.AllowedDomains url).err ∧
    (e.Config.Selectors.lookup "price" = none →
      ∀ d ∈ (e.Scrape engine url).data, ∃ p : Product, d = p.toScrapedData ∧ p.Price = "") ∧
    (e.Config.Selectors.lookup "name" = none →
      ∀ d ∈ (e.Scrape engine url).data, ∃ p : Product, d = p.toScrapedData ∧ p.Name = "") ∧
    (e.Config.Selectors.lookup "url" = none →
      ∀ d ∈ (e.Scrape engine url).data, ∃ p : Product, d = p.toScrapedData ∧ p.Url = "") ∧
    (e.Config.Selectors.lookup "image" = none →
      ∀ d ∈ (e.Scrape engine url).data, ∃ p : Product, d = p.toScrapedData ∧ p.Image = "") := by
  have hdata : ∀ d ∈ (e.Scrape engine url).data,
      ∃ el ∈ (engine e.Config.AllowedDomains url).matched
        (e.Config.Selectors.index "product_item"),
        d = (productOf e.Config el).toScrapedData := by
    intro d hd
    rw [Scrape_eq] at hd
    cases herr : (engine e.Config.AllowedDomains url).err with
    | none =>
      rw [herr] at hd
      simp only [List.mem_map] at hd
      obtain ⟨p, ⟨el, hel, hp⟩, hpd⟩ := hd
      exact ⟨el, hel, by rw [← hpd, ← hp]⟩
    | some x =>
      rw [herr] at hd
      simp at hd
  refine ⟨?_, ?_, ?_, ?_, ?_⟩
  · rw [Scrape_eq]
    cases (engine e.Config.AllowedDomains url).err <;> rfl
  · intro hk d hd
    obtain ⟨el, hel, rfl⟩ := hdata d hd
    refine ⟨_, rfl, ?_⟩
    simp [productOf, GoMap.index, hk, (hengine el hel).1]
  · intro hk d hd
    obtain ⟨el, hel, rfl⟩ := hdata d hd
    refine ⟨_, rfl, ?_⟩
    simp [productOf, GoMap.index, hk, (hengine el hel).1]
  · intro hk d hd
    obtain ⟨el, hel, rfl⟩ := hdata d hd
    refine ⟨_, rfl, ?_⟩
    simp [productOf, GoMap.index, hk, (hengine el hel).2]
  · intro hk d hd
    obtain ⟨el, hel, rfl⟩ := hdata d hd
    refine ⟨_, rfl, ?_⟩
    simp [productOf, GoMap.index, hk, (hengine el hel).2]

theorem sampleEngine_empty_selector (domains : List String) (url selector : String) :
    ∀ el ∈ (sampleEngine domains url).matched selector,
      el.ChildText "" = "" ∧ ∀ attr, el.ChildAttr "" attr = "" := by
  intro el hel
  simp only [sampleEngine] at hel
  split at hel
  · simp only [samplePage, List.mem_cons, List.mem_singleton, List.not_mem_nil, or_false] at hel
    rcases hel with rfl | rfl | rfl <;> exact ⟨rfl, fun _ => by simp [sampleElement]⟩
  · simp at hel

theorem missing_field_selector_gives_empty_field_witness :
    noPriceConfig.Selectors.lookup "product_item" = some ".item" ∧
    noPriceConfig.Selectors.lookup "url" = some "a" ∧
    noPriceConfig.Selectors.lookup "name" = some ".title" ∧
    noPriceConfig.Selectors.lookup "price" = none ∧
    ((NewScraper noPriceConfig).Scrape sampleEngine "http://example.com/list").err = none ∧
    ((NewScraper noPriceConfig).Scrape sampleEngine "http://example.com/list").data.length = 3 ∧
    ∀ d ∈ ((NewScraper noPriceConfig).Scrape sampleEngine "http://example.com/list").data,
      ∃ p : Product, d = p.toScrapedData ∧ p.Price = "" :=
  ⟨by decide, by decide, by decide, by decide, by decide, by decide,
    (missing_field_selector_gives_empty_field sampleEngine (NewScraper noPriceConfig)
      "http://example.com/list" (sampleEngine_empty_selector _ _ _)).2.1 (by decide)⟩

/-! ## The CSV writer -/

theorem structValues_eq (fs : List StructField) (vs : List String)
    (h : structValues fs = some vs) : vs = fs.map (fun f => f.value.format) := by
  induction fs generalizing vs with
  | nil =>
    simp [structValues] at h
    simp [h]
  | cons f rest ih =>
    unfold structValues at h
    split at h
    · split at h
      · rename_i ws hws
        simp only [Option.some.injEq] at h
        rw [← h, ih ws hws]
        rfl
      · exact absurd h (by simp)
    · exact absurd h (by simp)

theorem structValues_of_exported (fs : List StructField)
    (h : ∀ f ∈ fs, f.exported = true) :
    structValues fs = some (fs.map (fun f => f.value.format)) := by
  induction fs with
  | nil => rfl
  | cons f rest ih =>
    have hf : f.exported = true := h f (List.mem_cons_self _ _)
    have hrest := ih (fun g hg => h g (List.mem_cons_of_mem _ hg))
    simp [structValues, hf, hrest]

theorem getStructValues_eq (item : ScrapedData) (vs : List String)
    (h : getStructValues item = some vs) : vs = item.row := by
  cases item with
  | structVal fs => exact structValues_eq fs vs h
  | structPtr target =>
    cases target with
    | none => exact absurd h (by simp [getStructValues])
    | some fs => exact structValues_eq fs vs h
  | nonStruct v => exact absurd h (by simp [getStructValues])
  | nilValue => exact absurd h (by simp [getStructValues])

theorem getStructFields_of_hasFieldNames (T : List String) (item : ScrapedData)
    (h : item.hasFieldNames T) : getStructFields item = some T := by
  cases item with
  | structVal fs => simpa [ScrapedData.hasFieldNames, getStructFields] using h
  | structPtr target =>
    cases target with
    | none => exact absurd h (by simp [ScrapedData.hasFieldNames])
    | some fs => simpa [ScrapedData.hasFieldNames, getStructFields] using h
  | nonStruct v => exact absurd h (by simp [ScrapedData.hasFieldNames])
  | nilValue => exact absurd h (by simp [ScrapedData.hasFieldNames])

theorem row_length_of_hasFieldNames (T : List String) (item : ScrapedData)
    (h : item.hasFieldNames T) : item.row.length = T.length := by
  cases item with
  | structVal fs =>
    have h1 : fs.map StructField.Name = T := h
    simp [ScrapedData.row, ScrapedData.fields, ← h1]
  | structPtr target =>
    cases target with
    | none => exact absurd h (by simp [ScrapedData.hasFieldNames])
    | some fs =>
      have h1 : fs.map StructField.Name = T := h
      simp [ScrapedData.row, ScrapedData.fields, ← h1]
  | nonStruct v => exact absurd h (by simp [ScrapedData.hasFieldNames])
  | nilValue => exact absurd h (by simp [ScrapedData.hasFieldNames])

/-- When the row loop returns nil, the text it leaves is the text it started
from followed by one record per item, in order. -/
theorem writeRows_returned_nil (env : IOEnv) (data : List ScrapedData) (k : Nat)
    (buf out : String) (h : writeRows env data k buf = (.returned none, out)) :
    out = buf ++ csvText (data.map ScrapedData.row) := by
  induction data generalizing k buf with
  | nil =>
    simp only [writeRows, Prod.mk.injEq, true_and] at h
    simp [csvText, ← h]
  | cons item rest ih =>
    unfold writeRows at h
    split at h
    · exact absurd h (by simp)
    · rename_i record hrec
      split at h
      · exact absurd h (by simp)
      · have := ih (k + 1) (buf ++ csvRecord record) h
        rw [this, getStructValues_eq item record hrec]
        simp [csvText, String.append_assoc]

/-- When the row loop returns nil, reflection read every item. -/
theorem writeRows_returned_nil_values (env : IOEnv) (data : List ScrapedData) (k : Nat)
    (buf out : String) (h : writeRows env data k buf = (.returned none, out)) :
    ∀ item ∈ data, getStructValues item = some item.row := by
  induction data generalizing k buf with
  | nil => simp
  | cons item rest ih =>
    unfold writeRows at h
    split at h
    · exact absurd h (by simp)
    · rename_i record hrec
      split at h
      · exact absurd h (by simp)
      · intro it hit
        rcases List.mem_cons.mp hit with rfl | hmem
        · rw [hrec, getStructValues_eq _ record hrec]
        · exact ih (k + 1) (buf ++ csvRecord record) h it hmem

/-- When no write fails and reflection reads every item, the row loop returns
nil and writes one record per item. -/
theorem writeRows_of_ok (env : IOEnv) (data : List ScrapedData) (k : Nat) (buf : String)
    (hw : ∀ j, env.writeErr j = none)
    (hv : ∀ item ∈ data, getStructValues item = some item.row) :
    writeRows env data k buf = (.returned none, buf ++ csvText (data.map ScrapedData.row)) := by
  induction data generalizing k buf with
  | nil => simp [writeRows, csvText]
  | cons item rest ih =>
    have h1 := hv item (List.mem_cons_self _ _)
    have h2 := ih (k + 1) (buf ++ csvRecord item.row)
      (fun it hit => hv it (List.mem_cons_of_mem _ hit))
    simp [writeRows, h1, hw k, h2, csvText, String.append_assoc]

theorem FileSystem.read_put (fs : FileSystem) (path text : String) :
    (fs.put path text).read path = some text := by
  simp [FileSystem.put, FileSystem.read, GoMap.lookup_store_same]

/-- C8: `Write` on an empty sequence returns the error `no data to write` and
the file system it was given: no file is created or truncated. -/
theorem write_empty_fails (env : IOEnv) (filename : String) (fs : FileSystem) :
    CSVWriter.Write env [] filename fs =
      { outcome := .returned (some "no data to write"), fs := fs } ∧
    (CSVWriter.Write env [] filename fs).fs.read filename = fs.read filename := by
  exact ⟨rfl, rfl⟩


/-- When creating the file, every write and the deferred flush succeed and
reflection reads every item, `Write` returns nil and the file holds the header
record followed by one record per item. -/
theorem Write_of_ok (env : IOEnv) (first : ScrapedData) (rest : List ScrapedData)
    (filename : String) (fs : FileSystem) (headers : List String)
    (hc : env.createErr filename = none) (hw : ∀ k, env.writeErr k = none)
    (hfl : env.flushErr = none)
    (hf : getStructFields first = some headers)
    (hv : ∀ item ∈ first :: rest, getStructValues item = some item.row) :
    CSVWriter.Write env (first :: rest) filename fs =
      { outcome := .returned none
        fs := fs.put filename
          (csvRecord headers ++ csvText ((first :: rest).map ScrapedData.row)) } := by
  simp only [CSVWriter.Write, hc, hf, hw 0, writeRows_of_ok env _ 1 _ hw hv,
    IOEnv.fileAfter, hfl]

/-! ## Reading back what the csv writer wrote -/

theorem String.mk_data_eq (s : String) : String.mk s.data = s := rfl

theorem mem_escapeQuotes (c : Char) (cs : List Char) (h : c ∈ escapeQuotes cs) :
    c ∈ cs := by
  induction cs with
  | nil => exact h
  | cons d rest ih =>
    unfold escapeQuotes at h
    split at h
    · rename_i hd
      simp only [List.mem_cons] at h
      rcases h with h | h | h
      · exact List.mem_cons.mpr (Or.inl (h.trans hd.symm))
      · exact List.mem_cons.mpr (Or.inl (h.trans hd.symm))
      · exact List.mem_cons_of_mem _ (ih h)
    · rcases List.mem_cons.mp h with h | h
      · exact List.mem_cons.mpr (Or.inl h)
      · exact List.mem_cons_of_mem _ (ih h)

theorem newline_not_mem_csvField (field : String) (h : '\n' ∉ field.data) :
    '\n' ∉ (csvField field).data := by
  have hq : ¬ ('\n' = dquote) := by decide
  unfold csvField
  split
  · intro hmem
    simp only [List.mem_cons, List.mem_append, List.mem_singleton, List.not_mem_nil,
      or_false] at hmem
    rcases hmem with hmem | hmem | hmem
    · exact hq hmem
    · exact h (mem_escapeQuotes _ _ hmem)
    · exact hq hmem
  · exact h

theorem newline_not_mem_csvJoin (record : List String)
    (h : ∀ v ∈ record, '\n' ∉ v.data) : '\n' ∉ (csvJoin record).data := by
  induction record with
  | nil => simp [csvJoin]
  | cons f rest ih =>
    have hf := newline_not_mem_csvField f (h f (List.mem_cons_self _ _))
    have hrest := ih (fun v hv => h v (List.mem_cons_of_mem _ hv))
    cases rest with
    | nil => simpa [csvJoin] using hf
    | cons g more =>
      simp only [csvJoin, String.data_append, List.mem_append, not_or]
      exact ⟨⟨hf, by simp⟩, hrest⟩

/-- A line without a newline, followed by a newline, is the first line. -/
theorem linesOf_append (line rest : List Char) (h : '\n' ∉ line) :
    linesOf (line ++ '\n' :: rest) = line :: linesOf rest := by
  induction line with
  | nil => simp [linesOf]
  | cons c cs ih =>
    have hc : ¬ (c = '\n') := fun e => h (by simp [e])
    have hcs : '\n' ∉ cs := fun hm => h (List.mem_cons_of_mem _ hm)
    simp [linesOf, hc, ih hcs, pushFront]

/-- The lines of a text of records whose fields hold no newline are the
records, each joined by commas. -/
theorem textLines_csvText (rows : List (List String))
    (h : ∀ row ∈ rows, ∀ v ∈ row, '\n' ∉ v.data) :
    textLines (csvText rows) = rows.map csvJoin := by
  unfold textLines
  induction rows with
  | nil => rfl
  | cons r rest ih =>
    have hr := newline_not_mem_csvJoin r (h r (List.mem_cons_self _ _))
    have hrest := ih (fun row hrow => h row (List.mem_cons_of_mem _ hrow))
    have hnl : ("\n" : String).data = ['\n'] := rfl
    simp only [csvText, csvRecord, String.data_append, hnl, List.append_assoc,
      List.singleton_append, linesOf_append _ _ hr, List.map_cons, hrest]

/-- After a complete field the splitter closes it and goes on behind the comma. -/
theorem fieldsFrom_tail (st : ReadState) (tail : List Char) (hst : st ≠ .quoted)
    (ht : tail = [] ∨ ∃ m, tail = ',' :: m) :
    fieldsFrom st tail = [] :: fieldsAfter tail := by
  have hq : ¬ (',' = dquote) := by decide
  rcases ht with rfl | ⟨m, rfl⟩
  · cases st <;> rfl
  · cases st with
    | start => simp [fieldsFrom, fieldsAfter, hq]
    | unquoted => simp [fieldsFrom, fieldsAfter]
    | quoted => exact absurd rfl hst
    | quoteSeen => simp [fieldsFrom, fieldsAfter, hq]

theorem fieldsFrom_unquoted (xs tail : List Char) (hx : ',' ∉ xs)
    (ht : tail = [] ∨ ∃ m, tail = ',' :: m) :
    fieldsFrom .unquoted (xs ++ tail) = xs :: fieldsAfter tail := by
  induction xs with
  | nil => exact fieldsFrom_tail .unquoted tail (by decide) ht
  | cons c cs ih =>
    have hc : ¬ (c = ',') := fun e => hx (by simp [e])
    have hcs : ',' ∉ cs := fun hm => hx (List.mem_cons_of_mem _ hm)
    simp [fieldsFrom, hc, ih hcs, pushFront]

theorem fieldsFrom_quoted (xs tail : List Char)
    (ht : tail = [] ∨ ∃ m, tail = ',' :: m) :
    fieldsFrom .quoted (escapeQuotes xs ++ dquote :: tail) = xs :: fieldsAfter tail := by
  induction xs with
  | nil =>
    simp only [escapeQuotes, List.nil_append, fieldsFrom, if_true]
    exact fieldsFrom_tail .quoteSeen tail (by decide) ht
  | cons c cs ih =>
    by_cases hc : c = dquote
    · simp [escapeQuotes, hc, fieldsFrom, ih, pushFront]
    · simp [escapeQuotes, hc, fieldsFrom, ih, pushFront]

/-- A field the writer leaves unquoted holds neither a comma nor a quote. -/
theorem plain_of_not_fieldNeedsQuotes (field : String)
    (h : fieldNeedsQuotes field = false) :
    ∀ c ∈ field.data, c ≠ ',' ∧ c ≠ dquote := by
  intro c hc
  unfold fieldNeedsQuotes at h
  by_cases h1 : field = ""
  · subst h1
    exact absurd hc (by simp)
  · by_cases h2 : field = "\\."
    · simp [h1, h2] at h
    · by_cases h3 : field.data.any
          (fun c => c = '\n' || c = '\r' || c = dquote || c = ',') = true
      · simp [h1, h2, h3] at h
      · have h4 := Bool.eq_false_iff.mpr h3
        rw [List.any_eq_false] at h4
        have h5 := h4 c hc
        simp only [Bool.or_eq_true, decide_eq_true_eq, not_or] at h5
        exact ⟨h5.2, h5.1.2⟩

theorem fieldsFrom_csvField (field : String) (tail : List Char)
    (ht : tail = [] ∨ ∃ m, tail = ',' :: m) :
    fieldsFrom .start ((csvField field).data ++ tail) = field.data :: fieldsAfter tail := by
  unfold csvField
  split
  · have h := fieldsFrom_quoted field.data tail ht
    have happ : (dquote :: (escapeQuotes field.data ++ [dquote])) ++ tail =
        dquote :: (escapeQuotes field.data ++ dquote :: tail) := by simp
    show fieldsFrom .start ((dquote :: (escapeQuotes field.data ++ [dquote])) ++ tail) = _
    rw [happ]
    simpa [fieldsFrom] using h
  · rename_i hq
    have hplain := plain_of_not_fieldNeedsQuotes field (by simpa using hq)
    cases hd : field.data with
    | nil =>
      simp only [List.nil_append]
      exact fieldsFrom_tail .start tail (by decide) ht
    | cons c cs =>
      have hc := hplain c (by simp [hd])
      have hcs : ',' ∉ cs := fun hm => (hplain ',' (by simp [hd, hm])).1 rfl
      simp [fieldsFrom, hc.1, hc.2, fieldsFrom_unquoted cs tail hcs ht, pushFront]

theorem fieldsFrom_csvJoin (record : List String) (hr : record ≠ []) :
    fieldsFrom .start (csvJoin record).data = record.map String.data := by
  induction record with
  | nil => exact absurd rfl hr
  | cons f rest ih =>
    cases rest with
    | nil =>
      have h := fieldsFrom_csvField f [] (Or.inl rfl)
      simpa [csvJoin, fieldsAfter] using h
    | cons g more =>
      have h := fieldsFrom_csvField f (',' :: (csvJoin (g :: more)).data) (Or.inr ⟨_, rfl⟩)
      have hcomma : (",": String).data = [','] := rfl
      simp only [csvJoin, String.data_append, hcomma, List.append_assoc,
        List.singleton_append] at h ⊢
      rw [h, fieldsAfter, ih (by simp)]
      rfl

/-- Splitting a written record into fields gives the record back. -/
theorem parseFields_csvJoin (record : List String) (hr : record ≠ []) :
    parseFields (csvJoin record) = record := by
  unfold parseFields
  rw [fieldsFrom_csvJoin record hr, List.map_map]
  exact List.map_id'' (fun s => rfl) record

/-- Reading back the text of records gives the records, when no field holds a
newline and no record is written as a blank line. -/
theorem readBack_csvText (rows : List (List String))
    (hnl : ∀ row ∈ rows, ∀ v ∈ row, '\n' ∉ v.data)
    (hblank : ∀ row ∈ rows, row ≠ [] ∧ row ≠ [""]) :
    readBack (csvText rows) = rows := by
  have hkeep : ∀ l ∈ rows.map csvJoin, decide (l ≠ "") = true := by
    intro l hl
    obtain ⟨row, hrow, rfl⟩ := List.mem_map.mp hl
    have hp := parseFields_csvJoin row (hblank row hrow).1
    simp only [decide_eq_true_eq]
    intro hempty
    rw [hempty] at hp
    exact (hblank row hrow).2 hp.symm
  unfold readBack
  rw [textLines_csvText rows hnl, List.filter_eq_self.mpr hkeep, List.map_map]
  calc rows.map (parseFields ∘ csvJoin) = rows.map id :=
        List.map_congr_left (fun row hrow => parseFields_csvJoin row (hblank row hrow).1)
    _ = rows := List.map_id rows

/-! ## What `Write` leaves in the file -/

/-- When only the deferred flush fails, `Write` still returns nil, and the file
is empty. -/
theorem write_flush_failure_leaves_empty_file :
    CSVWriter.Write flushFailEnv sampleStock "stock.csv" sampleFS =
      { outcome := .returned none, fs := sampleFS.put "stock.csv" "" } := by
  decide

/-- C9, as stated, fails: the three products of the end-to-end scenario are
written under the header line `Url,Image,Name,Price`, the declared field names,
not `url,image,name,price`. -/
theorem write_products_header_is_capitalised :
    (CSVWriter.Write okEnv
        ((NewScraper shopConfig).Scrape sampleEngine "http://example.com/list").data
        "products.csv" sampleFS).outcome = .returned none ∧
    (CSVWriter.Write okEnv
        ((NewScraper shopConfig).Scrape sampleEngine "http://example.com/list").data
        "products.csv" sampleFS).fs.read "products.csv" =
      some ("Url,Image,Name,Price\n" ++ "/p/1,/i/1.png,Tea,3.50\n" ++
        "/p/2,/i/2.png,Mug,7.00\n" ++ "/p/3,/i/3.png,Pot,12.00\n") ∧
    ((CSVWriter.Write okEnv
        ((NewScraper shopConfig).Scrape sampleEngine "http://example.com/list").data
        "products.csv" sampleFS).fs.read "products.csv").map firstLine
      ≠ some "url,image,name,price" := by
  refine ⟨by decide, by decide, by decide⟩

/-- C9, amended: when creating the file, the writes and the deferred flush do
not fail, `Write` on three products returns nil and leaves a file whose header
line is exactly `Url,Image,Name,Price`, followed by three data rows, one per
product in order, each holding the fields in the order Url, Image, Name, Price. -/
theorem write_three_products (env : IOEnv) (p1 p2 p3 : Product) (filename : String)
    (fs : FileSystem) (hc : env.createErr filename = none)
    (hw : ∀ k, env.writeErr k = none) (hfl : env.flushErr = none) :
    (CSVWriter.Write env [p1.toScrapedData, p2.toScrapedData, p3.toScrapedData]
      filename fs).outcome = .returned none ∧
    (CSVWriter.Write env [p1.toScrapedData, p2.toScrapedData, p3.toScrapedData]
      filename fs).fs.read filename =
      some ("Url,Image,Name,Price\n" ++
        (csvRecord [p1.Url, p1.Image, p1.Name, p1.Price] ++
          (csvRecord [p2.Url, p2.Image, p2.Name, p2.Price] ++
            (csvRecord [p3.Url, p3.Image, p3.Name, p3.Price] ++ "")))) ∧
    firstLine ("Url,Image,Name,Price\n" ++
        (csvRecord [p1.Url, p1.Image, p1.Name, p1.Price] ++
          (csvRecord [p2.Url, p2.Image, p2.Name, p2.Price] ++
            (csvRecord [p3.Url, p3.Image, p3.Name, p3.Price] ++ ""))))
      = "Url,Image,Name,Price" := by
  have hhead : csvRecord ["Url", "Image", "Name", "Price"] = "Url,Image,Name,Price\n" := by
    decide
  have h := Write_of_ok env p1.toScrapedData [p2.toScrapedData, p3.toScrapedData] filename fs
    ["Url", "Image", "Name", "Price"] hc hw hfl rfl (by
      intro item hitem
      simp only [List.mem_cons, List.mem_singleton, List.not_mem_nil, or_false] at hitem
      rcases hitem with rfl | rfl | rfl <;> rfl)
  rw [h]
  refine ⟨rfl, ?_, rfl⟩
  rw [FileSystem.read_put, hhead]
  rfl

theorem write_three_products_witness :
    (CSVWriter.Write okEnv
      [(Product.mk "/p/1" "/i/1.png" "Tea" "3.50").toScrapedData,
        (Product.mk "/p/2" "/i/2.png" "Mug, \"large\"" "7.00").toScrapedData,
        (Product.mk "/p/3" "/i/3.png" "Pot" "12.00").toScrapedData]
      "products.csv" sampleFS).outcome = .returned none ∧
    (CSVWriter.Write okEnv
      [(Product.mk "/p/1" "/i/1.png" "Tea" "3.50").toScrapedData,
        (Product.mk "/p/2" "/i/2.png" "Mug, \"large\"" "7.00").toScrapedData,
        (Product.mk "/p/3" "/i/3.png" "Pot" "12.00").toScrapedData]
      "products.csv" sampleFS).fs.read "products.csv" =
      some ("Url,Image,Name,Price\n" ++
        (csvRecord ["/p/1", "/i/1.png", "Tea", "3.50"] ++
          (csvRecord ["/p/2", "/i/2.png", "Mug, \"large\"", "7.00"] ++
            (csvRecord ["/p/3", "/i/3.png", "Pot", "12.00"] ++ "")))) ∧
    firstLine ("Url,Image,Name,Price\n" ++
        (csvRecord ["/p/1", "/i/1.png", "Tea", "3.50"] ++
          (csvRecord ["/p/2", "/i/2.png", "Mug, \"large\"", "7.00"] ++
            (csvRecord ["/p/3", "/i/3.png", "Pot", "12.00"] ++ ""))))
      = "Url,Image,Name,Price" :=
  write_three_products okEnv (Product.mk "/p/1" "/i/1.png" "Tea" "3.50")
    (Product.mk "/p/2" "/i/2.png" "Mug, \"large\"" "7.00")
    (Product.mk "/p/3" "/i/3.png" "Pot" "12.00") "products.csv" sampleFS rfl (fun _ => rfl)
    rfl

/-- C10, as stated, fails: a successful write of one record whose value spans
two lines leaves a file of three lines, not two; a successful write of one
record whose only value is empty leaves a blank line, so that reading the file
back yields one record, not two; and a write whose deferred flush fails returns
nil over an empty file. -/
theorem write_read_back_line_count_fails :
    ((CSVWriter.Write okEnv twoLineValue "tea.csv" sampleFS).outcome = .returned none ∧
      (CSVWriter.Write okEnv twoLineValue "tea.csv" sampleFS).fs.read "tea.csv" =
        some "Name\n\"Green\nTea\"\n" ∧
      textLines "Name\n\"Green\nTea\"\n" = ["Name", "\"Green", "Tea\""] ∧
      (textLines "Name\n\"Green\nTea\"\n").length ≠ twoLineValue.length + 1 ∧
      (readBack "Name\n\"Green\nTea\"\n").length ≠ twoLineValue.length + 1) ∧
    ((CSVWriter.Write okEnv emptyValue "tea.csv" sampleFS).outcome = .returned none ∧
      (CSVWriter.Write okEnv emptyValue "tea.csv" sampleFS).fs.read "tea.csv" =
        some "Name\n\n" ∧
      readBack "Name\n\n" = [["Name"]] ∧
      (readBack "Name\n\n").length ≠ emptyValue.length + 1) ∧
    ((CSVWriter.Write flushFailEnv sampleStock "stock.csv" sampleFS).outcome
        = .returned none ∧
      (CSVWriter.Write flushFailEnv sampleStock "stock.csv" sampleFS).fs.read "stock.csv"
        = some "" ∧
      (textLines "").length ≠ sampleStock.length + 1 ∧
      (readBack "").length ≠ sampleStock.length + 1) := by
  refine ⟨⟨by decide, by decide, by decide, by decide, by decide⟩,
    ⟨by decide, by decide, by decide, by decide⟩,
    ⟨by decide, by decide, by decide, by decide⟩⟩

/-- C10, amended: when `Write` returns nil and its deferred flush succeeds, on a
non-empty sequence of `N` items that are all structs, by value or by pointer,
with the declared field names `T`, where no name and no stringified value holds
a newline and no record is written as a blank line, reading the file back
yields `N + 1` lines and records: first the header `T`, then one row per item in
input order, each the item's field values stringified in declaration order as
`getStructValues` returns them, and each with as many fields as the header. -/
theorem write_then_read_back (env : IOEnv) (data : List ScrapedData) (filename : String)
    (fs : FileSystem) (T : List String) (hne : data ≠ [])
    (hT : ∀ item ∈ data, item.hasFieldNames T)
    (hok : (CSVWriter.Write env data filename fs).outcome = .returned none)
    (hfl : env.flushErr = none)
    (hnl : ∀ row ∈ T :: data.map ScrapedData.row, ∀ v ∈ row, '\n' ∉ v.data)
    (hblank : ∀ row ∈ T :: data.map ScrapedData.row, row ≠ [] ∧ row ≠ [""]) :
    ∃ text, (CSVWriter.Write env data filename fs).fs.read filename = some text ∧
      (textLines text).length = data.length + 1 ∧
      readBack text = T :: data.map ScrapedData.row ∧
      (readBack text).length = data.length + 1 ∧
      (∀ r ∈ readBack text, r.length = T.length) ∧
      (∀ item ∈ data,
        getStructFields item = some T ∧ getStructValues item = some item.row) := by
  cases data with
  | nil => exact absurd rfl hne
  | cons first rest =>
    have hf : getStructFields first = some T :=
      getStructFields_of_hasFieldNames T first (hT first (List.mem_cons_self _ _))
    have hlen : ∀ r ∈ T :: (first :: rest).map ScrapedData.row, r.length = T.length := by
      intro r hr
      rcases List.mem_cons.mp hr with rfl | hr
      · rfl
      · obtain ⟨item, hitem, rfl⟩ := List.mem_map.mp hr
        exact row_length_of_hasFieldNames T item (hT item hitem)
    cases hce : env.createErr filename with
    | some e => simp [CSVWriter.Write, hce] at hok
    | none =>
      cases hw0 : env.writeErr 0 with
      | some e => simp [CSVWriter.Write, hce, hf, hw0] at hok
      | none =>
        simp only [CSVWriter.Write, hce, hf, hw0] at hok ⊢
        have hrows : writeRows env (first :: rest) 1 (csvRecord T) =
            (.returned none, (writeRows env (first :: rest) 1 (csvRecord T)).2) :=
          Prod.ext hok rfl
        have hout := writeRows_returned_nil env _ 1 _ _ hrows
        have hvals := writeRows_returned_nil_values env _ 1 _ _ hrows
        have htext : csvRecord T ++ csvText ((first :: rest).map ScrapedData.row) =
            csvText (T :: (first :: rest).map ScrapedData.row) := rfl
        have hread := readBack_csvText _ hnl hblank
        have hlines := textLines_csvText _ hnl
        refine ⟨csvText (T :: (first :: rest).map ScrapedData.row), ?_, ?_, hread, ?_, ?_, ?_⟩
        · rw [hok]
          simp only [IOEnv.fileAfter, hfl]
          rw [FileSystem.read_put, hout, htext]
        · rw [hlines]
          simp
        · rw [hread]
          simp
        · rw [hread]
          exact hlen
        · intro item hitem
          exact ⟨getStructFields_of_hasFieldNames T item (hT item hitem), hvals item hitem⟩

theorem write_then_read_back_witness :
    (CSVWriter.Write okEnv sampleStock "stock.csv" sampleFS).outcome = .returned none ∧
    ∃ text, (CSVWriter.Write okEnv sampleStock "stock.csv" sampleFS).fs.read "stock.csv"
        = some text ∧
      (textLines text).length = sampleStock.length + 1 ∧
      readBack text = ["Id", "Name", "InStock"] :: sampleStock.map ScrapedData.row ∧
      (readBack text).length = sampleStock.length + 1 ∧
      (∀ r ∈ readBack text, r.length = ["Id", "Name", "InStock"].length) ∧
      (∀ item ∈ sampleStock, getStructFields item = some ["Id", "Name", "InStock"] ∧
        getStructValues item = some item.row) :=
  ⟨by decide,
    write_then_read_back okEnv sampleStock "stock.csv" sampleFS ["Id", "Name", "InStock"]
      (by decide)
      (by
        intro item hitem
        simp only [sampleStock, List.mem_cons, List.mem_singleton, List.not_mem_nil,
          or_false] at hitem
        rcases hitem with rfl | rfl <;> exact rfl)
      (by decide) rfl (by decide) (by decide)⟩

/-- The file of the sample stock records, character by character, and what
reading it back yields. -/
theorem write_sampleStock_text :
    (CSVWriter.Write okEnv sampleStock "stock.csv" sampleFS).fs.read "stock.csv" =
      some "Id,Name,InStock\n7,\"Tea, green\",true\n-2,Mug,false\n" ∧
    readBack "Id,Name,InStock\n7,\"Tea, green\",true\n-2,Mug,false\n" =
      [["Id", "Name", "InStock"], ["7", "Tea, green", "true"], ["-2", "Mug", "false"]] := by
  refine ⟨by decide, by decide⟩

end OmniCrawler
